import Mathlib

/-!
Verification of the traffic-track analysis engine
(`traffic_visualization.py`): a shallow embedding of its data model and
core operations, with theorems settling the specified properties.

Conventions of the embedding:
* machine floats become `ℚ` (all arithmetic in the claims is exact);
* 2-D numpy arrays become functions `ℕ → ℕ → α` together with explicit
  dimensions `T` (time steps) and `L` (spatial positions);
* Python `int(x)` truncation toward zero becomes `pyInt`;
* Python `range(0, n, step)` becomes `pyRangeStep`;
* the trigonometric values `np.degrees(angle)`, `np.sin(angle)`,
  `np.cos(angle)` attached to a Hough peak are carried as rational
  fields of a `HoughPeak` record, since only their values (never the
  trigonometric identities) are used by the detector's filtering logic.
-/

/-! ## Constants (module-level constants of the source) -/

def MIN_TRACK_LENGTH : ℕ := 8

def MIN_SPEED_KMH : ℚ := 5

def MAX_SPEED_KMH : ℚ := 120

def CONGESTION_SPEED_THRESHOLD : ℚ := 25

/-! ## Python helpers -/

/-- Python `int(x)`: truncation toward zero. -/
def pyInt (q : ℚ) : ℤ :=
  if q < 0 then -(⌊-q⌋) else ⌊q⌋

/-- Python `range(0, n, step)` for `step ≥ 1`: the multiples of `step`
below `n`. -/
def pyRangeStep (n step : ℕ) : List ℕ :=
  (List.range ((n + step - 1) / step)).map (fun i => i * step)

/-- Python `min` over a list (first element as initial accumulator);
`0` stands for the `ValueError` case of an empty list, which every
caller in the source either avoids or catches. -/
def pyMin : List ℚ → ℚ
  | [] => 0
  | h :: t => t.foldl min h

/-- Python `max` over a list (first element as initial accumulator). -/
def pyMax : List ℚ → ℚ
  | [] => 0
  | h :: t => t.foldl max h

/-! ## Track points and speed estimation (`fast_generate_analysis`) -/

/-- One realized track point: absolute time and spatial position. -/
structure TrackPoint where
  time : ℚ
  position : ℚ
deriving DecidableEq, Repr

/-- Speed computation of `fast_generate_analysis` (lines 227-233):
`speed_kmh = 0`; if the track has more than one point, take the first
and last point, `dt = Δtime`, `dx = Δposition`, and if `dt > 0` set
`speed_kmh = abs(dx / dt * 3.6)`. -/
def speed_of (track_data : List TrackPoint) : ℚ :=
  if 1 < track_data.length then
    let p0 := track_data.headD ⟨0, 0⟩
    let pn := track_data.getLastD ⟨0, 0⟩
    let dt := pn.time - p0.time
    let dx := pn.position - p0.position
    if 0 < dt then |dx / dt * (36 / 10)| else 0
  else 0

/-- Speed-band filter of `fast_generate_analysis` (line 236): the
candidate is appended to the final track list iff
`MIN_SPEED_KMH <= speed_kmh <= MAX_SPEED_KMH`. -/
def speed_accepted (track_data : List TrackPoint) : Bool :=
  decide (MIN_SPEED_KMH ≤ speed_of track_data) &&
    decide (speed_of track_data ≤ MAX_SPEED_KMH)

/-! ## Timestamp loading (`load_combined_data`) -/

/-- A stored timestamp array: either a flat `[T]` array of fractional
seconds, or a 2-D `[T, w]` array (each row of width `w`). -/
inductive TSArray where
  | flat (vals : List ℚ)
  | grid (w : ℕ) (rows : List (List ℚ))
deriving DecidableEq, Repr

/-- Timestamp handling of `load_combined_data` (lines 67-70): the raw
`timestamps` dataset is returned unchanged unless it is 2-D with
`shape[1] == 3`, in which case column 0 is combined with column 1 as
`timestamps[:, 0] + timestamps[:, 1] / 1000.0`. -/
def load_timestamps : TSArray → TSArray
  | TSArray.flat vals => TSArray.flat vals
  | TSArray.grid w rows =>
      if w = 3 then
        TSArray.flat (rows.map (fun r => r.getD 0 0 + r.getD 1 0 / 1000))
      else
        TSArray.grid w rows

/-! ## Line detection (`detect_tracks_fast`) -/

/-- One peak returned by `hough_line_peaks`, carrying the values the
detector's loop body reads from it: `deg = np.degrees(angle)`,
`sinA = np.sin(angle)`, `cosA = np.cos(angle)`, and the offset
`dist`. -/
structure HoughPeak where
  deg : ℚ
  sinA : ℚ
  cosA : ℚ
  dist : ℚ
deriving DecidableEq, Repr

/-- Position implied by a peak at time index `t` (line 133):
`x = (dist - t * sin(angle)) / cos(angle)`. -/
def x_of (pk : HoughPeak) (t : ℕ) : ℚ :=
  (pk.dist - (t : ℚ) * pk.sinA) / pk.cosA

/-- The candidate's sampled trace (lines 132-139): for each time index
`t` in `range T`, the point `(t, x)`, kept iff `0 ≤ x < L`. -/
def candidate_track (T L : ℕ) (pk : HoughPeak) : List (ℕ × ℚ) :=
  ((List.range T).filter
      (fun t => decide (0 ≤ x_of pk t ∧ x_of pk t < (L : ℚ)))).map
    (fun t => (t, x_of pk t))

/-- The support count of lines 142-148: among the first 10 track
points, the number falling on a true cell of the binary mask (the
accumulated `signal_sum` is never used afterwards). -/
def mask_support (binary_mask : ℕ → ℕ → Bool) (tps : List (ℕ × ℚ)) : ℕ :=
  ((tps.take 10).filter
      (fun p => binary_mask p.1 (pyInt p.2).toNat)).length

/-- The loop body of `detect_tracks_fast` (lines 126-151) for one
Hough peak: skip unless `3 < |deg| < 87`; build the sampled trace and
skip if it has fewer than `MIN_TRACK_LENGTH` in-bounds points; skip
unless at least 3 of the first 10 points lie on a true mask cell. -/
def process_peak (signal_2d : ℕ → ℕ → ℚ) (binary_mask : ℕ → ℕ → Bool)
    (T L : ℕ) (pk : HoughPeak) : Option (List (ℕ × ℚ)) :=
  if ¬ (3 < |pk.deg| ∧ |pk.deg| < 87) then none
  else if (candidate_track T L pk).length < MIN_TRACK_LENGTH then none
  else if 3 ≤ mask_support binary_mask (candidate_track T L pk) then
    some (candidate_track T L pk)
  else none

/-- `detect_tracks_fast` after the Hough search: the returned track
list, in the peaks' native order. -/
def detect_tracks_fast (signal_2d : ℕ → ℕ → ℚ)
    (binary_mask : ℕ → ℕ → Bool) (T L : ℕ) (peaks : List HoughPeak) :
    List (List (ℕ × ℚ)) :=
  peaks.filterMap (process_peak signal_2d binary_mask T L)

/-- Support count as the specification words it: points of the first
10 that fall on a true mask cell AND carry positive field intensity.
Stated only to be compared against the source's `mask_support`. -/
def spec_pos_support (signal_2d : ℕ → ℕ → ℚ)
    (binary_mask : ℕ → ℕ → Bool) (tps : List (ℕ × ℚ)) : ℕ :=
  ((tps.take 10).filter
      (fun p => binary_mask p.1 (pyInt p.2).toNat &&
        decide (0 < signal_2d p.1 (pyInt p.2).toNat))).length

/-- A concrete Hough peak used by witnesses: its trace is
`x = (4/5 + (3/5)·t) / (4/5) = 1 + (3/4)·t`, so in a `12 × 10` field
all 12 time indices give in-bounds points. -/
def pk0 : HoughPeak := ⟨37, -(3 / 5), 4 / 5, 4 / 5⟩

/-- The sampled trace of `pk0` in a `12 × 10` field. -/
def tr0 : List (ℕ × ℚ) := candidate_track 12 10 pk0

/-! ## Vehicle classification (`smart_classify_vehicle`) -/

/-- The two vehicle classes of the classifier. -/
inductive VehicleType where
  | light
  | heavy
deriving DecidableEq, Repr

/-- The sampled amplitudes of `smart_classify_vehicle` (lines
161-169): walk the track with `step = max(1, len(track_points) // 20)`
and collect the field intensity at every visited point whose indices
`(int(t), int(x))` are in bounds (`t` is a time index, hence already a
natural number). -/
def sampled_amps (signal_2d : ℕ → ℕ → ℚ) (T L : ℕ)
    (track_points : List (ℕ × ℚ)) : List ℚ :=
  (pyRangeStep track_points.length
      (max 1 (track_points.length / 20))).filterMap
    (fun i =>
      let p := track_points.getD i (0, 0)
      if p.1 < T ∧ 0 ≤ pyInt p.2 ∧ pyInt p.2 < (L : ℤ) then
        some (signal_2d p.1 (pyInt p.2).toNat)
      else none)

/-- `np.mean` of a list of rationals. -/
def npMean (a : List ℚ) : ℚ :=
  a.sum / (a.length : ℚ)

/-- `smart_classify_vehicle` (lines 156-191): empty tracks and tracks
with no in-bounds sample classify as `light` with amplitude 0;
otherwise `heavy` iff the mean sampled amplitude exceeds 2.5 or the
maximum exceeds 25, and `light` in both remaining branches (the
source's `elif avg_amp > 1.0` and `else` branches coincide). The
image-wide `data_mean`/`data_std` of lines 178-179 are computed but
never used, and are omitted. -/
def smart_classify_vehicle (signal_2d : ℕ → ℕ → ℚ) (T L : ℕ) :
    List (ℕ × ℚ) → VehicleType × ℚ
  | [] => (VehicleType.light, 0)
  | p :: ps =>
    if sampled_amps signal_2d T L (p :: ps) = [] then (VehicleType.light, 0)
    else if 5 / 2 < npMean (sampled_amps signal_2d T L (p :: ps)) ∨
        25 < pyMax (sampled_amps signal_2d T L (p :: ps)) then
      (VehicleType.heavy, npMean (sampled_amps signal_2d T L (p :: ps)))
    else if 1 < npMean (sampled_amps signal_2d T L (p :: ps)) then
      (VehicleType.light, npMean (sampled_amps signal_2d T L (p :: ps)))
    else
      (VehicleType.light, npMean (sampled_amps signal_2d T L (p :: ps)))

/-- A degenerate 21-point track (every point at the origin), all of
whose points are in bounds of any positive-sized field. -/
def track21 : List (ℕ × ℚ) := List.replicate 21 (0, 0)

/-! ## Mask building (`optimized_preprocess`, lines 90-99) -/

/-- The values of a `T × L` field, row by row (`np.percentile` ranks
the flattened array). -/
def flatten_field (field : ℕ → ℕ → ℚ) (T L : ℕ) : List ℚ :=
  (List.range T).flatMap (fun t => (List.range L).map (field t))

/-- The sorted copy of the values that `np.percentile` works on. -/
def sortedOf (vals : List ℚ) : List ℚ :=
  vals.mergeSort (fun a b => decide (a ≤ b))

/-- The fractional rank `p / 100 * (n - 1)` used by `np.percentile`'s
default linear interpolation. -/
def pIndex (p : ℚ) (n : ℕ) : ℚ :=
  p / 100 * ((n : ℚ) - 1)

/-- `np.percentile(vals, p)` with the default linear interpolation:
sort, take the floor rank `i` and the next rank, and interpolate
between them by the fractional part of the rank. -/
def percentile (vals : List ℚ) (p : ℚ) : ℚ :=
  if (sortedOf vals).length = 0 then 0
  else
    (sortedOf vals).getD (⌊pIndex p (sortedOf vals).length⌋).toNat 0 +
      (pIndex p (sortedOf vals).length -
          ((⌊pIndex p (sortedOf vals).length⌋ : ℤ) : ℚ)) *
        ((sortedOf vals).getD
            (min ((⌊pIndex p (sortedOf vals).length⌋).toNat + 1)
              ((sortedOf vals).length - 1)) 0 -
          (sortedOf vals).getD (⌊pIndex p (sortedOf vals).length⌋).toNat 0)

/-- The adaptive threshold of lines 91-93:
`threshold = p70 + 0.2 * (p85 - p70)`. -/
def mask_threshold (vals : List ℚ) : ℚ :=
  percentile vals 70 + (2 / 10) * (percentile vals 85 - percentile vals 70)

/-- Line 95: `binary = filtered_data > threshold`. -/
def raw_binary (field : ℕ → ℕ → ℚ) (threshold : ℚ) : ℕ → ℕ → Bool :=
  fun t x => decide (threshold < field t x)

/-- `binary_erosion` with structuring element `np.ones((1, 2))`
(line 98): with the structure centred at its second cell, the output
at `(t, x)` requires both `(t, x-1)` and `(t, x)`, with cells left of
the border counting as false. -/
def binary_erosion_1x2 (m : ℕ → ℕ → Bool) : ℕ → ℕ → Bool :=
  fun t x => (match x with | 0 => false | Nat.succ x' => m t x') && m t x

/-- `binary_dilation` with structuring element `np.ones((1, 2))`
(line 99): the structure is mirrored, so the output at `(t, x)` takes
the disjunction of `(t, x)` and `(t, x+1)`, with cells beyond column
`L` counting as false. -/
def binary_dilation_1x2 (m : ℕ → ℕ → Bool) (L : ℕ) : ℕ → ℕ → Bool :=
  fun t x => m t x || (if x + 1 < L then m t (x + 1) else false)

/-- The full mask builder of `optimized_preprocess` lines 90-99:
threshold the field adaptively, then open (erode then dilate) with the
`1 × 2` structuring element. -/
def final_mask (field : ℕ → ℕ → ℚ) (T L : ℕ) : ℕ → ℕ → Bool :=
  binary_dilation_1x2
    (binary_erosion_1x2
      (raw_binary field (mask_threshold (flatten_field field T L)))) L

/-! ## Statistics aggregation (`create_fast_statistics`, `_empty_stats`) -/

/-- Per-class vehicle counts. -/
structure VehicleCounts where
  light : ℕ
  heavy : ℕ
deriving DecidableEq, Repr

/-- The statistics record assembled by `create_fast_statistics`. -/
structure Stats where
  total_vehicles : ℕ
  avg_speed_kmh : ℚ
  congestion_vehicles : ℕ
  congestion_percent : ℚ
  peak_hour : String
  traffic_intensity : ℚ
  vehicle_types : VehicleCounts
  processing_time : ℚ
deriving DecidableEq, Repr

/-- An accepted track as appended by `fast_generate_analysis`
(lines 237-243). -/
structure Track where
  id : ℕ
  points : List TrackPoint
  vehicle_type : VehicleType
  avg_amp : ℚ
  speed_kmh : ℚ
deriving DecidableEq, Repr

/-- Python `round` to the nearest integer, halves to even. -/
def round_half_even (q : ℚ) : ℤ :=
  if q - ⌊q⌋ < 1 / 2 then ⌊q⌋
  else if 1 / 2 < q - ⌊q⌋ then ⌊q⌋ + 1
  else if ⌊q⌋ % 2 = 0 then ⌊q⌋ else ⌊q⌋ + 1

/-- Python `round(q, 1)`. -/
def round1 (q : ℚ) : ℚ :=
  ((round_half_even (q * 10) : ℤ) : ℚ) / 10

/-- Python `f"{n:02d}"` for a natural number. -/
def two_digits (n : ℕ) : String :=
  if n < 10 then "0" ++ toString n else toString n

/-- The peak-hour label `f"{h:02d}:00-{h+1:02d}:00"` of line 306. -/
def hour_range_str (h : ℕ) : String :=
  two_digits h ++ ":00-" ++ two_digits (h + 1) ++ ":00"

/-- The keys of a Python dict in insertion order: first occurrence of
each hour in the track order. -/
def dedupFirst (l : List ℕ) : List ℕ :=
  l.foldl (fun acc h => if h ∈ acc then acc else acc ++ [h]) []

/-- Python `max(keys, key=val)`: the first key attaining the maximum
value, keys visited in order (`0` stands for the `ValueError` on an
empty dict, which line 299 guards against). -/
def pyDictMax (keys : List ℕ) (val : ℕ → ℕ) : ℕ :=
  match keys with
  | [] => 0
  | k :: ks => ks.foldl (fun best k2 => if val best < val k2 then k2 else best) k

/-- `_empty_stats` (lines 312-318), verbatim. -/
def empty_stats : Stats :=
  ⟨0, 0, 0, 0, "00:00-01:00", 0, ⟨0, 0⟩, 0⟩

/-- `create_fast_statistics` (lines 274-310). `hourOf` abstracts
`int(datetime.fromtimestamp(t).strftime('%H'))` (the local-time hour
of a timestamp), and `elapsed` abstracts `time.time() -
self.start_time`; both are impure in the source and passed here as
parameters. On an empty track list the fixed `empty_stats` record is
returned before anything else is computed. -/
def create_fast_statistics (hourOf : ℚ → ℕ) (elapsed : ℚ)
    (tracks : List Track) (timestamps : List ℚ) : Stats :=
  match tracks with
  | [] => empty_stats
  | t0 :: rest =>
    let speeds := (t0 :: rest).map (fun t => t.speed_kmh)
    let light_count := ((t0 :: rest).filter
      (fun t => decide (t.vehicle_type = VehicleType.light))).length
    let heavy_count := ((t0 :: rest).filter
      (fun t => decide (t.vehicle_type = VehicleType.heavy))).length
    let congestion_count := (speeds.filter
      (fun s => decide (s < CONGESTION_SPEED_THRESHOLD))).length
    let start_times := (t0 :: rest).map (fun t => (t.points.headD ⟨0, 0⟩).time)
    let start_time := if start_times = [] then timestamps.getD 0 0
      else pyMin start_times
    let end_time := if start_times = [] then
      timestamps.getD (timestamps.length - 1) 0 else pyMax start_times
    let duration_hours := (end_time - start_time) / 3600
    let hours := (t0 :: rest).map
      (fun t => hourOf (t.points.headD ⟨0, 0⟩).time)
    let peak := if hours = [] then 0
      else pyDictMax (dedupFirst hours)
        (fun h => (hours.filter (fun h2 => decide (h2 = h))).length)
    ⟨(t0 :: rest).length,
      if speeds = [] then 0 else round1 (npMean speeds),
      congestion_count,
      if (t0 :: rest) = ([] : List Track) then 0
        else round1 ((congestion_count : ℚ) / ((t0 :: rest).length : ℚ) * 100),
      hour_range_str peak,
      if 0 < duration_hours then
        round1 (((t0 :: rest).length : ℚ) / duration_hours) else 0,
      ⟨light_count, heavy_count⟩,
      round1 elapsed⟩

/-! ## Result persistence (`save_results_fast`,
`load_tracks_and_get_time_range`) -/

/-- The persisted artifact of `save_results_fast`: the `trace_list`
and `statistics` keys of `tracks.json` (the `metadata` key is never
read back). -/
structure AnalysisResult where
  trace_list : List Track
  statistics : Stats
deriving DecidableEq, Repr

/-- `save_results_fast` (lines 438-450): serialize the track list and
statistics; the artifact overwrites any previous one. -/
def save_results_fast (tracks : List Track) (stats : Stats) : AnalysisResult :=
  ⟨tracks, stats⟩

/-- `load_tracks_and_get_time_range` (lines 468-479). `none` models a
missing or unparseable `tracks.json` (the `except` branch); a stored
empty `trace_list` returns the sentinel `([], 0, 1)`; and when every
stored track has an empty point list, Python's `min([])` raises a
`ValueError` that the same `except` turns into `([], 0, 1)`. -/
def load_tracks_and_get_time_range :
    Option AnalysisResult → List Track × ℚ × ℚ
  | none => ([], 0, 1)
  | some data =>
    match data.trace_list with
    | [] => ([], 0, 1)
    | t0 :: rest =>
      match (t0 :: rest).flatMap (fun tr => tr.points.map (fun pt => pt.time)) with
      | [] => ([], 0, 1)
      | h :: tail => (t0 :: rest, tail.foldl min h, tail.foldl max h)

/-- A persisted track with no points: `load` raises at `min([])` and
falls into the `except`. -/
def empty_point_track : Track :=
  ⟨0, [], VehicleType.light, 0, 0⟩

/-- Linear interpolation between equal ranks is the common value:
`np.percentile` of a constant list is that constant, for any
percentile between 0 and 100. -/
lemma percentile_const (vals : List ℚ) (v p : ℚ) (hne : vals ≠ [])
    (hall : ∀ a ∈ vals, a = v) (hp0 : 0 ≤ p) (hp1 : p ≤ 100) :
    percentile vals p = v := by
  have hperm : (sortedOf vals).Perm vals := List.mergeSort_perm vals _
  have hlen : (sortedOf vals).length = vals.length := hperm.length_eq
  have hpos : 0 < (sortedOf vals).length := by
    rw [hlen]
    exact List.length_pos.mpr hne
  have hsall : ∀ a ∈ sortedOf vals, a = v := fun a ha =>
    hall a (hperm.mem_iff.mp ha)
  have hgetD : ∀ i, i < (sortedOf vals).length →
      (sortedOf vals).getD i 0 = v := by
    intro i hi
    rw [List.getD_eq_getElem _ _ hi]
    exact hsall _ (List.getElem_mem hi)
  have hidx : (⌊pIndex p (sortedOf vals).length⌋).toNat <
      (sortedOf vals).length := by
    have h1 : pIndex p (sortedOf vals).length ≤
        (((sortedOf vals).length : ℚ) - 1) := by
      rw [pIndex]
      have hbase : (0 : ℚ) ≤ ((sortedOf vals).length : ℚ) - 1 := by
        have : (1 : ℚ) ≤ ((sortedOf vals).length : ℚ) := by
          exact_mod_cast hpos
        linarith
      nlinarith
    have h2 : (⌊pIndex p (sortedOf vals).length⌋ : ℤ) ≤
        ((sortedOf vals).length : ℤ) - 1 := by
      have := Int.floor_le_floor h1
      rwa [show (((sortedOf vals).length : ℚ) - 1) =
          ((((sortedOf vals).length : ℤ) - 1 : ℤ) : ℚ) by push_cast; ring,
        Int.floor_intCast] at this
    omega
  rw [percentile, if_neg (Nat.pos_iff_ne_zero.mp hpos)]
  rw [hgetD _ hidx, hgetD _ (by omega)]
  ring

/-! ## Theorems for C7 -/

/-- C7: on an all-uniform field the mask builder's threshold
computation is total (no division by a quantity that can vanish
occurs — the only divisor is the constant 100) and yields the common
value `v` as threshold; since `v > v` is false, the raw mask, and
hence its opening, is deterministically all-false (satisfying
"all-false or all-true"). -/
theorem uniform_field_mask_all_false (T L : ℕ) (v : ℚ)
    (hT : 0 < T) (hL : 0 < L) :
    mask_threshold (flatten_field (fun _ _ => v) T L) = v ∧
      ∀ t x, final_mask (fun _ _ => v) T L t x = false := by
  have hmem : v ∈ flatten_field (fun _ _ => v) T L := by
    rw [flatten_field]
    exact List.mem_flatMap.mpr ⟨0, List.mem_range.mpr hT,
      List.mem_map.mpr ⟨0, List.mem_range.mpr hL, rfl⟩⟩
  have hne : flatten_field (fun _ _ => v) T L ≠ [] :=
    List.ne_nil_of_mem hmem
  have hall : ∀ a ∈ flatten_field (fun _ _ => v) T L, a = v := by
    intro a ha
    rw [flatten_field] at ha
    obtain ⟨t, -, ha⟩ := List.mem_flatMap.mp ha
    obtain ⟨x, -, rfl⟩ := List.mem_map.mp ha
    rfl
  have h70 := percentile_const _ v 70 hne hall (by norm_num) (by norm_num)
  have h85 := percentile_const _ v 85 hne hall (by norm_num) (by norm_num)
  have hthr : mask_threshold (flatten_field (fun _ _ => v) T L) = v := by
    rw [mask_threshold, h70, h85]
    ring
  refine ⟨hthr, ?_⟩
  intro t x
  have hraw : ∀ t' x',
      raw_binary (fun _ _ => v)
        (mask_threshold (flatten_field (fun _ _ => v) T L)) t' x' = false := by
    intro t' x'
    rw [raw_binary, hthr]
    simp
  simp only [final_mask, binary_dilation_1x2, binary_erosion_1x2, hraw]
  cases x <;> simp

/-- Witness for C7 at a concrete input: a uniform `2 × 3` field of
value 5 gets threshold 5 and a false mask cell at `(0, 1)`. -/
theorem uniform_field_mask_all_false_witness :
    mask_threshold (flatten_field (fun _ _ => (5 : ℚ)) 2 3) = 5 ∧
      final_mask (fun _ _ => (5 : ℚ)) 2 3 0 1 = false :=
  ⟨(uniform_field_mask_all_false 2 3 5 (by decide) (by decide)).1,
    (uniform_field_mask_all_false 2 3 5 (by decide) (by decide)).2 0 1⟩

/-! ## Theorems for C1 and C2 -/

/-- C1: for every candidate track, the computed speed is
`|Δposition / Δtime| * 3.6` taken from the first and last point only,
with speed `0` when the track has fewer than 2 points or `Δtime ≤ 0`;
the candidate passes the speed filter iff
`5 ≤ speed_kmh ≤ 120`; in particular equal first/last timestamps give
speed `0` and rejection. -/
theorem speed_formula_and_band_filter (pts : List TrackPoint) :
    (pts.length < 2 → speed_of pts = 0) ∧
    (∀ p0 pn : TrackPoint, pts.head? = some p0 → pts.getLast? = some pn →
      speed_of pts =
        if 1 < pts.length ∧ 0 < pn.time - p0.time then
          |(pn.position - p0.position) / (pn.time - p0.time) * (36 / 10)|
        else 0) ∧
    (speed_accepted pts = true ↔
      MIN_SPEED_KMH ≤ speed_of pts ∧ speed_of pts ≤ MAX_SPEED_KMH) ∧
    (∀ p0 pn : TrackPoint, pts.head? = some p0 → pts.getLast? = some pn →
      pn.time = p0.time → speed_of pts = 0 ∧ speed_accepted pts = false) := by
  refine ⟨?_, ?_, ?_, ?_⟩
  · intro hlen
    unfold speed_of
    rw [if_neg]
    omega
  · intro p0 pn h0 hn
    unfold speed_of
    have hd0 : pts.headD ⟨0, 0⟩ = p0 := by
      rw [List.headD_eq_head?, h0]; rfl
    have hdn : pts.getLastD ⟨0, 0⟩ = pn := by
      rw [List.getLastD_eq_getLast?, hn]; rfl
    by_cases h1 : 1 < pts.length
    · rw [if_pos h1]
      simp only [hd0, hdn]
      by_cases h2 : 0 < pn.time - p0.time
      · rw [if_pos h2, if_pos ⟨h1, h2⟩]
      · rw [if_neg h2, if_neg (by tauto)]
    · rw [if_neg h1, if_neg (by tauto)]
  · unfold speed_accepted
    rw [Bool.and_eq_true, decide_eq_true_iff, decide_eq_true_iff]
  · intro p0 pn h0 hn hteq
    have hd0 : pts.headD ⟨0, 0⟩ = p0 := by
      rw [List.headD_eq_head?, h0]; rfl
    have hdn : pts.getLastD ⟨0, 0⟩ = pn := by
      rw [List.getLastD_eq_getLast?, hn]; rfl
    have hsp : speed_of pts = 0 := by
      unfold speed_of
      by_cases h1 : 1 < pts.length
      · rw [if_pos h1]
        simp only [hd0, hdn, hteq, sub_self]
        rw [if_neg (lt_irrefl 0)]
      · rw [if_neg h1]
    refine ⟨hsp, ?_⟩
    unfold speed_accepted
    rw [hsp]
    simp [MIN_SPEED_KMH]

/-- Witness for C1 at a concrete input: a two-point track whose first
and last points share the timestamp `5` gets speed `0` and is
rejected. -/
theorem speed_formula_and_band_filter_witness :
    speed_of [⟨5, 0⟩, ⟨5, 100⟩] = 0 ∧
      speed_accepted [⟨5, 0⟩, ⟨5, 100⟩] = false :=
  (speed_formula_and_band_filter [⟨5, 0⟩, ⟨5, 100⟩]).2.2.2 ⟨5, 0⟩ ⟨5, 100⟩
    rfl rfl rfl

/-- C2 counterexample: a `[T, 2]` timestamp array of (seconds,
milliseconds) pairs is NOT combined by the loader — it is returned
unchanged as a 2-D array, not as the flat array of combined fractional
seconds (the source combines only when `shape[1] == 3`). -/
theorem load_timestamps_grid2_not_combined :
    load_timestamps (TSArray.grid 2 [[10, 500]]) =
        TSArray.grid 2 [[10, 500]] ∧
      load_timestamps (TSArray.grid 2 [[10, 500]]) ≠
        TSArray.flat [10 + 500 / 1000] := by
  refine ⟨rfl, ?_⟩
  intro h
  exact TSArray.noConfusion h

/-- C2 (amended): for every stored timestamp array of shape `[T, 3]`,
the loader returns the combined single fractional-second value
`t = seconds + milliseconds / 1000` for each time step, taken from the
first two fields of each row. -/
theorem load_timestamps_grid3_combined (rows : List (List ℚ)) :
    load_timestamps (TSArray.grid 3 rows) =
      TSArray.flat (rows.map (fun r => r.getD 0 0 + r.getD 1 0 / 1000)) :=
  rfl

/-- The trace of `pk0` at time index `t` sits at position
`1 + (3/4)·t`. -/
lemma x_of_pk0 (t : ℕ) : x_of pk0 t = 1 + (3 / 4) * (t : ℚ) := by
  rw [x_of, pk0]
  rw [div_eq_iff (by norm_num : (4 / 5 : ℚ) ≠ 0)]
  ring

/-- In a `12 × 10` field every time index of `pk0`'s trace is
in-bounds, so the candidate track is the full 12-point trace. -/
lemma candidate_track_pk0 :
    candidate_track 12 10 pk0 =
      (List.range 12).map (fun t => (t, x_of pk0 t)) := by
  rw [candidate_track]
  congr 1
  rw [List.filter_eq_self]
  intro t ht
  rw [List.mem_range] at ht
  rw [decide_eq_true_iff]
  rw [x_of_pk0]
  have h1 : (t : ℚ) ≤ 11 := by exact_mod_cast Nat.le_of_lt_succ ht
  have h0 : (0 : ℚ) ≤ (t : ℚ) := Nat.cast_nonneg t
  constructor
  · linarith
  · linarith

/-- The candidate track of `pk0` has exactly 12 points. -/
lemma candidate_track_pk0_length : (candidate_track 12 10 pk0).length = 12 := by
  rw [candidate_track_pk0, List.length_map, List.length_range]

/-- Over an all-true mask, the support count of `pk0`'s candidate
track is 10 (all of the first 10 points are on mask cells). -/
lemma mask_support_pk0 :
    mask_support (fun _ _ => true) (candidate_track 12 10 pk0) = 10 := by
  rw [mask_support]
  rw [List.filter_eq_self.mpr (by intro p _; rfl)]
  rw [List.length_take, candidate_track_pk0_length]
  decide

/-- For any field, `process_peak` accepts `pk0` over a `12 × 10`
all-true mask and returns its full trace. -/
lemma process_peak_pk0 (signal_2d : ℕ → ℕ → ℚ) :
    process_peak signal_2d (fun _ _ => true) 12 10 pk0 =
      some (candidate_track 12 10 pk0) := by
  rw [process_peak]
  rw [if_neg (not_not_intro (by rw [pk0]; norm_num))]
  rw [if_neg (by rw [candidate_track_pk0_length]; decide)]
  rw [if_pos (by rw [mask_support_pk0]; decide)]

/-! ## Theorems for C3 and C4 -/

/-- C3: every track returned by the line detector has at least
`MIN_TRACK_LENGTH` (8) in-bounds sampled points, and stems from a peak
whose angle in degrees is strictly between 3 and 87 in absolute value
(so no returned candidate has angle ≤ 3° or ≥ 87° from either axis, nor
fewer than 8 in-bounds points). -/
theorem detector_length_and_angle_bounds (signal_2d : ℕ → ℕ → ℚ)
    (binary_mask : ℕ → ℕ → Bool) (T L : ℕ) (peaks : List HoughPeak)
    (tr : List (ℕ × ℚ))
    (h : tr ∈ detect_tracks_fast signal_2d binary_mask T L peaks) :
    MIN_TRACK_LENGTH ≤ tr.length ∧
      ∃ pk ∈ peaks, (3 < |pk.deg| ∧ |pk.deg| < 87) ∧
        tr = candidate_track T L pk := by
  rw [detect_tracks_fast, List.mem_filterMap] at h
  obtain ⟨pk, hpk, hproc⟩ := h
  rw [process_peak] at hproc
  by_cases hang : 3 < |pk.deg| ∧ |pk.deg| < 87
  · rw [if_neg (not_not_intro hang)] at hproc
    by_cases hlen : (candidate_track T L pk).length < MIN_TRACK_LENGTH
    · rw [if_pos hlen] at hproc
      exact absurd hproc (Option.some_ne_none _).symm
    · rw [if_neg hlen] at hproc
      by_cases hsup : 3 ≤ mask_support binary_mask (candidate_track T L pk)
      · rw [if_pos hsup] at hproc
        obtain rfl : candidate_track T L pk = tr := Option.some_injective _ hproc
        exact ⟨Nat.le_of_not_lt hlen, pk, hpk, hang, rfl⟩
      · rw [if_neg hsup] at hproc
        exact absurd hproc (Option.some_ne_none _).symm
  · rw [if_pos hang] at hproc
    exact absurd hproc (Option.some_ne_none _).symm

/-- Witness for C3 at a concrete input: the trace of `pk0` is returned
by the detector over a `12 × 10` all-true mask, and hence has at least
8 points and an admissible angle. -/
theorem detector_length_and_angle_bounds_witness :
    MIN_TRACK_LENGTH ≤ tr0.length ∧
      ∃ pk ∈ [pk0], (3 < |pk.deg| ∧ |pk.deg| < 87) ∧
        tr0 = candidate_track 12 10 pk :=
  detector_length_and_angle_bounds (fun _ _ => 0) (fun _ _ => true)
    12 10 [pk0] tr0
    (by
      rw [detect_tracks_fast]
      simp [List.filterMap_cons, process_peak_pk0, tr0])

/-- C4 counterexample: over an all-true mask and an identically-zero
field, the detector returns the trace of `pk0` although none of its
sampled points (let alone 3 of the first 10) falls on a mask cell with
positive field intensity — the source's support check tests mask
membership only, never positivity of the field. -/
theorem detector_support_ignores_intensity :
    tr0 ∈ detect_tracks_fast (fun _ _ => 0) (fun _ _ => true) 12 10 [pk0] ∧
      ¬ 3 ≤ spec_pos_support (fun _ _ => 0) (fun _ _ => true) tr0 := by
  constructor
  · rw [detect_tracks_fast]
    simp [List.filterMap_cons, process_peak_pk0, tr0]
  · rw [spec_pos_support]
    simp [lt_irrefl]

/-- C4 (amended): for every line candidate surviving the angle and
length filters, the detector counts how many of the candidate's first
10 in-bounds points fall on an occupied (true) mask cell — regardless
of the field intensity there — and returns the candidate iff at least
3 such points exist. -/
theorem detector_support_rule (signal_2d : ℕ → ℕ → ℚ)
    (binary_mask : ℕ → ℕ → Bool) (T L : ℕ) (pk : HoughPeak)
    (hang : 3 < |pk.deg| ∧ |pk.deg| < 87)
    (hlen : MIN_TRACK_LENGTH ≤ (candidate_track T L pk).length) :
    process_peak signal_2d binary_mask T L pk =
        (if 3 ≤ mask_support binary_mask (candidate_track T L pk) then
          some (candidate_track T L pk)
        else none) ∧
      detect_tracks_fast signal_2d binary_mask T L [pk] =
        (if 3 ≤ mask_support binary_mask (candidate_track T L pk) then
          [candidate_track T L pk]
        else []) := by
  have hp : process_peak signal_2d binary_mask T L pk =
      (if 3 ≤ mask_support binary_mask (candidate_track T L pk) then
        some (candidate_track T L pk)
      else none) := by
    rw [process_peak, if_neg (not_not_intro hang)]
    rw [if_neg (Nat.not_lt_of_le hlen)]
  refine ⟨hp, ?_⟩
  rw [detect_tracks_fast, List.filterMap_cons, hp]
  by_cases hsup : 3 ≤ mask_support binary_mask (candidate_track T L pk)
  · rw [if_pos hsup, if_pos hsup]
    rfl
  · rw [if_neg hsup, if_neg hsup]
    rfl

/-- Witness for C4 at a concrete input: `pk0` over a `12 × 10` all-true
mask passes both the angle and length filters, and the support rule
determines the detector's output for it. -/
theorem detector_support_rule_witness :
    process_peak (fun _ _ => 0) (fun _ _ => true) 12 10 pk0 =
        (if 3 ≤ mask_support (fun _ _ => true) (candidate_track 12 10 pk0)
          then some (candidate_track 12 10 pk0) else none) ∧
      detect_tracks_fast (fun _ _ => 0) (fun _ _ => true) 12 10 [pk0] =
        (if 3 ≤ mask_support (fun _ _ => true) (candidate_track 12 10 pk0)
          then [candidate_track 12 10 pk0] else []) :=
  detector_support_rule (fun _ _ => 0) (fun _ _ => true) 12 10 pk0
    (by rw [pk0]; norm_num)
    (by rw [candidate_track_pk0_length]; decide)

/-! ## Theorems for C5 and C6 -/

/-- C5: the classifier returns `heavy` iff the mean sampled amplitude
exceeds 2.5 or the maximum sampled amplitude exceeds 25, and `light`
otherwise; with no valid (in-bounds) samples it returns `light` with
amplitude 0. -/
theorem classifier_decision_rule (signal_2d : ℕ → ℕ → ℚ) (T L : ℕ)
    (track_points : List (ℕ × ℚ)) :
    (sampled_amps signal_2d T L track_points = [] →
      smart_classify_vehicle signal_2d T L track_points =
        (VehicleType.light, 0)) ∧
    (sampled_amps signal_2d T L track_points ≠ [] →
      ((smart_classify_vehicle signal_2d T L track_points).1 =
          VehicleType.heavy ↔
        (5 / 2 < npMean (sampled_amps signal_2d T L track_points) ∨
          25 < pyMax (sampled_amps signal_2d T L track_points))) ∧
      ((smart_classify_vehicle signal_2d T L track_points).1 =
          VehicleType.light ↔
        ¬ (5 / 2 < npMean (sampled_amps signal_2d T L track_points) ∨
          25 < pyMax (sampled_amps signal_2d T L track_points)))) := by
  cases track_points with
  | nil => exact ⟨fun _ => rfl, fun h => absurd rfl h⟩
  | cons p ps =>
    by_cases hamp : sampled_amps signal_2d T L (p :: ps) = []
    · refine ⟨fun _ => ?_, fun h => absurd hamp h⟩
      simp only [smart_classify_vehicle]
      rw [if_pos hamp]
    · refine ⟨fun h => absurd h hamp, fun _ => ?_⟩
      simp only [smart_classify_vehicle]
      rw [if_neg hamp]
      by_cases hcond : 5 / 2 < npMean (sampled_amps signal_2d T L (p :: ps)) ∨
          25 < pyMax (sampled_amps signal_2d T L (p :: ps))
      · rw [if_pos hcond]
        constructor <;> simp [hcond]
      · rw [if_neg hcond, ite_self]
        constructor <;> simp [hcond]

/-- Witness for C5 at a concrete input: a one-point track over the
constant field of intensity 3 has a nonempty sample list, and the
decision rule applies to it. -/
theorem classifier_decision_rule_witness :
    sampled_amps (fun _ _ => 3) 1 1 [(0, 0)] ≠ [] ∧
      ((smart_classify_vehicle (fun _ _ => 3) 1 1 [(0, 0)]).1 =
          VehicleType.heavy ↔
        (5 / 2 < npMean (sampled_amps (fun _ _ => 3) 1 1 [(0, 0)]) ∨
          25 < pyMax (sampled_amps (fun _ _ => 3) 1 1 [(0, 0)]))) := by
  have hne : sampled_amps (fun _ _ => 3) 1 1 [(0, 0)] ≠ [] := by decide
  exact ⟨hne, ((classifier_decision_rule (fun _ _ => 3) 1 1 [(0, 0)]).2 hne).1⟩

/-- C6 (code bug): the classifier is documented to sample at most 20
evenly spaced points, but with `step = max(1, 21 // 20) = 1` a
21-point in-bounds track is sampled at all 21 of its points. -/
theorem classifier_oversamples_21_point_track :
    20 < (sampled_amps (fun _ _ => 1) 1 1 track21).length ∧
      (sampled_amps (fun _ _ => 1) 1 1 track21).length = track21.length := by
  decide

/-! ## Theorems for C8, C9 and C10 -/

/-- C8: aggregating the empty track set never fails and returns the
fixed empty-statistics record verbatim: `total_vehicles = 0`,
`avg_speed_kmh = 0`, `congestion_vehicles = 0`,
`congestion_percent = 0`, `peak_hour = "00:00-01:00"`,
`traffic_intensity = 0` and zero per-class counts. -/
theorem aggregate_empty_returns_fixed_record (hourOf : ℚ → ℕ)
    (elapsed : ℚ) (timestamps : List ℚ) :
    create_fast_statistics hourOf elapsed [] timestamps = empty_stats ∧
      empty_stats.total_vehicles = 0 ∧
      empty_stats.avg_speed_kmh = 0 ∧
      empty_stats.congestion_vehicles = 0 ∧
      empty_stats.congestion_percent = 0 ∧
      empty_stats.peak_hour = "00:00-01:00" ∧
      empty_stats.traffic_intensity = 0 ∧
      empty_stats.vehicle_types = ⟨0, 0⟩ :=
  ⟨rfl, rfl, rfl, rfl, rfl, rfl, rfl, rfl⟩

/-- C9 counterexample: persisting a single track that has no points
and loading it back yields the empty track list (the `min([])`
`ValueError` is swallowed by the `except`), so the persisted track
count of 1 is not reconstructed. -/
theorem roundtrip_loses_pointless_track :
    (load_tracks_and_get_time_range
        (some (save_results_fast [empty_point_track] empty_stats))).1.length ≠
      [empty_point_track].length := by
  decide

/-- C9 (amended): persisting a track list and loading the last result
reconstructs the same number of tracks and the same number of points
per track, provided the list is empty or at least one persisted track
has a nonempty point list (every track produced by the pipeline has at
least `MIN_TRACK_LENGTH` points). -/
theorem roundtrip_preserves_counts (tracks : List Track) (stats : Stats)
    (h : tracks = [] ∨ ∃ tr ∈ tracks, tr.points ≠ []) :
    ((load_tracks_and_get_time_range
        (some (save_results_fast tracks stats))).1).map
        (fun tr => tr.points.length) =
      tracks.map (fun tr => tr.points.length) := by
  rcases h with rfl | ⟨tr, htr, hp⟩
  · rfl
  · cases tracks with
    | nil => rfl
    | cons t0 rest =>
      have hq : tr.points.headD ⟨0, 0⟩ ∈ tr.points := by
        cases hpts : tr.points with
        | nil => exact absurd hpts hp
        | cons q qs => simp [hpts]
      have hmem : (tr.points.headD ⟨0, 0⟩).time ∈
          (t0 :: rest).flatMap (fun tr => tr.points.map (fun pt => pt.time)) :=
        List.mem_flatMap.mpr ⟨tr, htr, List.mem_map.mpr ⟨_, hq, rfl⟩⟩
      cases hat : (t0 :: rest).flatMap
          (fun tr => tr.points.map (fun pt => pt.time)) with
      | nil =>
        rw [hat] at hmem
        exact absurd hmem (List.not_mem_nil _)
      | cons h0 tail =>
        show ((match (t0 :: rest).flatMap
            (fun (tr : Track) => tr.points.map (fun (pt : TrackPoint) => pt.time)) with
          | [] => (([] : List Track), (0 : ℚ), (1 : ℚ))
          | h :: tail => (t0 :: rest, tail.foldl min h, tail.foldl max h)).1).map
            (fun (tr : Track) => tr.points.length) =
          (t0 :: rest).map (fun (tr : Track) => tr.points.length)
        rw [hat]

/-- Witness for C9 at a concrete input: a single one-point track
round-trips with its point count intact. -/
theorem roundtrip_preserves_counts_witness :
    ((load_tracks_and_get_time_range
        (some (save_results_fast
          [⟨0, [⟨1, 2⟩], VehicleType.light, 0, 36⟩] empty_stats))).1).map
        (fun tr => tr.points.length) =
      [(⟨0, [⟨1, 2⟩], VehicleType.light, 0, 36⟩ : Track)].map
        (fun tr => tr.points.length) :=
  roundtrip_preserves_counts
    [⟨0, [⟨1, 2⟩], VehicleType.light, 0, 36⟩] empty_stats
    (Or.inr ⟨⟨0, [⟨1, 2⟩], VehicleType.light, 0, 36⟩,
      List.mem_singleton.mpr rfl, by simp⟩)

/-- C10: the loader never raises — a stored empty track list, and a
missing or unparseable result file (modelled by `none`), both return
the empty track list with the sentinel time range `(0, 1)` instead of
propagating an error (the embedding is a total function; every failure
path of the source is caught by its `except` and lands in the same
sentinel). -/
theorem loader_returns_sentinel_on_empty_or_missing (stats : Stats) :
    load_tracks_and_get_time_range
        (some (save_results_fast [] stats)) = ([], 0, 1) ∧
      load_tracks_and_get_time_range none = ([], 0, 1) :=
  ⟨rfl, rfl⟩
